import Mathlib

/-
Verification of the DailyPe record service (app.py): a shallow embedding of
the two-table data model (Manager, User) and of the mutating HTTP handlers
(create_user, delete_user, update_user, create_manager), together with
theorems checking the documented behaviour of each operation.

Modelling conventions:
* UUIDs are modelled as natural numbers; a fresh id is drawn from a counter
  DBState.nextId (uuid4 collisions are ignored, matching primary-key
  uniqueness).  The string form of an id is its decimal notation and
  parseId models uuid.UUID(str) on such strings.
* datetimes are natural numbers; handlers take the current time as an
  explicit argument where the code calls datetime.datetime.utcnow().
* a JSON request field that is absent, null or otherwise falsy is modelled
  as none / the empty string, mirroring the truthiness tests in the code.
* each handler returns the committed database state together with the HTTP
  status code and message; on an error return the state is the input state,
  since the code returns before db.session.commit() and the staged session
  changes are discarded.
* the regular expressions of the code are translated to executable
  character-list matchers over ASCII (Python's re module on the same ASCII
  inputs accepts the same strings).
-/

namespace DailyPe

/-- ASCII model of str.upper (only letters a-z are changed). -/
def upChar (c : Char) : Char :=
  if 'a' ≤ c ∧ c ≤ 'z' then Char.ofNat (c.toNat - 32) else c

/-- str.upper() on a string. -/
def upperStr (s : String) : String := ⟨s.data.map upChar⟩

/-- re.sub(r'^(\+91|0)', '', mob_num): strip one leading "+91" or "0". -/
def normMob (s : String) : String :=
  match s.data with
  | '+' :: '9' :: '1' :: rest => ⟨rest⟩
  | '0' :: rest => ⟨rest⟩
  | _ => s

/-- The body [6-9]\d{9} of the mobile pattern. -/
def mobileCore (l : List Char) : Bool :=
  match l with
  | c :: rest => decide ('6' ≤ c) && decide (c ≤ '9') && rest.all Char.isDigit &&
      decide (rest.length = 9)
  | [] => false

/-- re.match(r'^(\+91|0)?[6-9]\d{9}$', s): the optional prefix alternatives are
disjoint, so the pattern matches exactly when the prefix-stripped string
matches the body. -/
def matchesMobile (s : String) : Bool := mobileCore (normMob s).data

def isUpperAlpha (c : Char) : Bool := decide ('A' ≤ c) && decide (c ≤ 'Z')

/-- re.match(r'^[A-Z]{5}[0-9]{4}[A-Z]$', s). -/
def matchesPAN (s : String) : Bool :=
  match s.data with
  | [a, b, c, d, e, f, g, h, i, j] =>
      [a, b, c, d, e].all isUpperAlpha && [f, g, h, i].all Char.isDigit && isUpperAlpha j
  | _ => false

/-- \w over ASCII. -/
def isWordChar (c : Char) : Bool := c.isAlphanum || decide (c = '_')

/-- the class [\w\.-]. -/
def isEmailChar (c : Char) : Bool := isWordChar c || decide (c = '.') || decide (c = '-')

/-- [\w\.-]+\.\w+ : there is a dot splitting the list into a nonempty
[\w\.-]+ part and a nonempty \w+ part. -/
def matchesDomain (l : List Char) : Bool :=
  (List.range l.length).any (fun i =>
    decide (0 < i) && (l.get? i == some '.') && (l.take i).all isEmailChar &&
      decide (i + 1 < l.length) && (l.drop (i + 1)).all isWordChar)

/-- re.match(r'^[\w\.-]+@[\w\.-]+\.\w+$', s): split at the first '@' (the
character classes exclude '@', so a match has exactly one). -/
def matchesEmail (s : String) : Bool :=
  let p := s.data.span (fun c => ¬ (c = '@'))
  match p.2 with
  | [] => false
  | _ :: domain => ¬ p.1.isEmpty && p.1.all isEmailChar && matchesDomain domain

/-- uuid.UUID(s) on the decimal string form of a modelled id; none models
the ValueError branch. -/
def parseId (s : String) : Option Nat :=
  if s.data ≠ [] ∧ s.data.all Char.isDigit then
    some (s.data.foldl (fun n c => n * 10 + (c.toNat - 48)) 0)
  else none

/-- One row of the user table. -/
structure UserRow where
  id : Nat
  full_name : String
  mob_num : String
  pan_num : String
  manager_id : Option Nat
  created_at : Nat
  updated_at : Option Nat
  is_active : Bool
deriving Repr, DecidableEq

/-- One row of the manager table. -/
structure ManagerRow where
  id : Nat
  full_name : String
  email : String
  is_active : Bool
deriving Repr, DecidableEq

/-- The database: both tables plus the fresh-id counter. -/
structure DBState where
  users : List UserRow
  managers : List ManagerRow
  nextId : Nat
deriving Repr, DecidableEq

/-- Committed state plus HTTP status and message of a handler call. -/
structure HOut where
  state : DBState
  status : Nat
  message : String
deriving Repr, DecidableEq

/-- Manager.query.get(manager_id) existence test in create_user (primary-key
lookup, not scoped by is_active). -/
def managerRefOk (st : DBState) (mid : Option Nat) : Bool :=
  match mid with
  | some m => st.managers.any (fun x => x.id == m)
  | none => true

/-- POST /create_user.  full_name = "" models a missing/empty field,
mob_num = "" a missing field, manager_id = none an absent/falsy field. -/
def createUser (st : DBState) (full_name mob_num pan_raw : String)
    (manager_id : Option Nat) (now : Nat) : HOut :=
  if full_name = "" then ⟨st, 400, "Full name is required"⟩
  else if mob_num = "" ∨ matchesMobile mob_num = false then
    ⟨st, 400, "Invalid mobile number"⟩
  else if matchesPAN (upperStr pan_raw) = false then
    ⟨st, 400, "Invalid PAN number"⟩
  else if managerRefOk st manager_id = false then
    ⟨st, 400, "Invalid manager ID"⟩
  else if st.users.any (fun u => u.mob_num == normMob mob_num) then
    ⟨st, 400, "User with the same mobile number already exists"⟩
  else if st.users.any (fun u => u.pan_num == upperStr pan_raw) then
    ⟨st, 400, "User with the same PAN number already exists"⟩
  else
    ⟨⟨st.users ++ [⟨st.nextId, full_name, normMob mob_num, upperStr pan_raw,
        manager_id, now, none, true⟩], st.managers, st.nextId + 1⟩,
      201, "User created successfully"⟩

/-- Result of POST /create_manager: on success the handler returns the new
manager's fields with status 201. -/
inductive CMResult where
  | failure (st : DBState) (status : Nat) (msg : String)
  | success (st : DBState) (status : Nat) (payload : ManagerRow)
deriving Repr, DecidableEq

/-- The state carried by a create_manager result. -/
def cmState : CMResult → DBState
  | .failure st _ _ => st
  | .success st _ _ => st

/-- POST /create_manager. -/
def createManager (st : DBState) (full_name email : String) : CMResult :=
  if full_name = "" then .failure st 400 "Full name is required"
  else if email = "" ∨ matchesEmail email = false then
    .failure st 400 "Invalid email address"
  else if st.managers.any (fun m => m.email == email) then
    .failure st 400 "Manager with the same email already exists"
  else
    .success ⟨st.users, st.managers ++ [⟨st.nextId, full_name, email, true⟩], st.nextId + 1⟩
      201 ⟨st.nextId, full_name, email, true⟩

/-- The lookup of delete_user: by user_id when given (active rows only),
else by mob_num (active rows only). -/
def findTarget (st : DBState) (user_id : Option Nat) (mob_num : String) : Option UserRow :=
  match user_id with
  | some uid => st.users.find? (fun u => u.id == uid && u.is_active)
  | none => st.users.find? (fun u => u.mob_num == mob_num && u.is_active)

/-- POST /delete_user.  mob_num = "" models an absent/falsy field. -/
def deleteUser (st : DBState) (user_id : Option Nat) (mob_num : String) : HOut :=
  if user_id = none ∧ mob_num = "" then
    ⟨st, 400, "Either user_id or mob_num is required"⟩
  else
    match findTarget st user_id mob_num with
    | none => ⟨st, 404, "User not found"⟩
    | some u =>
        ⟨⟨st.users.eraseP (fun v => v.id == u.id), st.managers, st.nextId⟩,
          200, "User deleted successfully"⟩

/-- GET /get_inactive_users (the returned rows). -/
def getInactiveUsers (st : DBState) : List UserRow :=
  st.users.filter (fun u => u.is_active == false)

/-- POST /wipe_database: db.drop_all(); db.create_all(). -/
def wipeDatabase (_st : DBState) : DBState := ⟨[], [], 0⟩

/-- dict.get(k) on the JSON object update_data; an entry with value none
models a JSON null value. -/
def dictGet (d : List (String × Option String)) (k : String) : Option String :=
  match d.lookup k with
  | some v => v
  | none => none

/-- set(update_data.keys()) - set(["manager_id"]). -/
def extraKeys (d : List (String × Option String)) : List String :=
  ((d.map Prod.fst).filter (fun k => ¬ (k = "manager_id"))).eraseDups

/-- The f-string of the same-manager conflict. -/
def conflictMsg (s : String) (uid : Nat) : String :=
  "Manager ID is already \x27" ++ s ++ "\x27 for user " ++ toString uid

/-- One iteration of the update_user loop for a resolved user u, when the
target manager string is truthy: conflict when the user already has the
target manager; otherwise supersede the row (non-null manager) or assign in
place (null manager). -/
def transition (tgt : Nat) (s : String) (now : Nat) (st : DBState) (u : UserRow) :
    Except (Nat × String) DBState :=
  if u.manager_id = some tgt then .error (400, conflictMsg s u.id)
  else
    match u.manager_id with
    | some _ =>
        .ok ⟨(st.users.map (fun v => if v.id = u.id then { v with is_active := false } else v)) ++
            [⟨st.nextId, u.full_name, u.mob_num, u.pan_num, some tgt, u.created_at, none, true⟩],
          st.managers, st.nextId + 1⟩
    | none =>
        .ok ⟨st.users.map (fun v =>
            if v.id = u.id then { v with manager_id := some tgt, updated_at := some now } else v),
          st.managers, st.nextId⟩

/-- The whole update_user loop over the resolved users. -/
def runBatch (tgt : Nat) (s : String) (now : Nat) :
    List UserRow → DBState → Except (Nat × String) DBState
  | [], st => .ok st
  | u :: rest, st =>
    match transition tgt s now st u with
    | .error e => .error e
    | .ok st1 => runBatch tgt s now rest st1

/-- Lines 171-182 of update_user: resolve the target manager id; ok none
when the manager_id value is absent/empty (falsy). -/
def managerStep (st : DBState) (ud : List (String × Option String)) :
    Except (Nat × String) (Option Nat) :=
  if (dictGet ud "manager_id").getD "" = "" then .ok none
  else
    match parseId ((dictGet ud "manager_id").getD "") with
    | none => .error (400, "Invalid manager ID format")
    | some tgt =>
      if st.managers.any (fun m => m.id == tgt && m.is_active) then .ok (some tgt)
      else .error (400, "Invalid manager ID")

/-- User.query.filter(User.id.in_(user_ids), User.is_active == True).all(). -/
def resolveUsers (st : DBState) (uids : List Nat) : List UserRow :=
  st.users.filter (fun u => uids.contains u.id && u.is_active)

/-- POST /update_user.  user_ids = none models an absent or non-list value,
update_data = none an absent or non-object value. -/
def updateUser (st : DBState) (user_ids : Option (List Nat))
    (update_data : Option (List (String × Option String))) (now : Nat) : HOut :=
  match user_ids with
  | none => ⟨st, 400, "user_ids is required and must be a list"⟩
  | some uids =>
    if uids = [] then ⟨st, 400, "user_ids is required and must be a list"⟩
    else
      match update_data with
      | none => ⟨st, 400, "update_data is required and must be an object"⟩
      | some ud =>
        if ud = [] then ⟨st, 400, "update_data is required and must be an object"⟩
        else if extraKeys ud ≠ [] then
          ⟨st, 400, "Cannot update keys: " ++ String.intercalate ", " (extraKeys ud) ++
            " in bulk. These keys can be updated individually only."⟩
        else
          match managerStep st ud with
          | .error e => ⟨st, e.1, e.2⟩
          | .ok tgtOpt =>
            if (resolveUsers st uids).length ≠ uids.length then
              ⟨st, 404, "One or more user IDs not found"⟩
            else
              match tgtOpt with
              | none => ⟨st, 200, "Users updated successfully"⟩
              | some tgt =>
                match runBatch tgt ((dictGet ud "manager_id").getD "") now
                    (resolveUsers st uids) st with
                | .error e => ⟨st, e.1, e.2⟩
                | .ok st2 => ⟨st2, 200, "Users updated successfully"⟩

/-- Database well-formedness: primary keys are unique and the fresh-id
counter is above every existing id. -/
def WF (st : DBState) : Prop :=
  (st.users.map (fun u => u.id)).Nodup ∧ ∀ r ∈ st.users, r.id < st.nextId

/-! ### Helper lemmas about the row maps used by transition -/

lemma filter_map_comm (f : UserRow → UserRow) (hf : ∀ v, (f v).id = v.id) (id0 : Nat)
    (l : List UserRow) :
    (l.map f).filter (fun v => v.id == id0) = (l.filter (fun v => v.id == id0)).map f := by
  induction l with
  | nil => simp
  | cons a t ih =>
    by_cases h : a.id = id0
    · simp [List.filter_cons, hf, h, ih]
    · simp [List.filter_cons, hf, h, ih]

lemma map_fix (f : UserRow → UserRow) (l : List UserRow) (hfix : ∀ v ∈ l, f v = v) :
    l.map f = l := by
  induction l with
  | nil => rfl
  | cons a t ih =>
    simp only [List.map_cons, hfix a (by simp)]
    rw [ih (fun v hv => hfix v (by simp [hv]))]

lemma map_filter_id_fix (f : UserRow → UserRow) (hf : ∀ v, (f v).id = v.id) (id0 : Nat)
    (l : List UserRow) (hfix : ∀ v, v.id = id0 → f v = v) :
    (l.map f).filter (fun v => v.id == id0) = l.filter (fun v => v.id == id0) := by
  rw [filter_map_comm f hf id0]
  apply map_fix
  intro v hv
  have hvid := List.of_mem_filter hv
  exact hfix v (by simpa using hvid)

lemma filter_eq_single_of_nodup :
    ∀ (l : List UserRow), (l.map (fun u => u.id)).Nodup →
      ∀ u : UserRow, u ∈ l → l.filter (fun v => v.id == u.id) = [u] := by
  intro l
  induction l with
  | nil => intro _ u hu; simp at hu
  | cons a t ih =>
    intro hnd u hu
    simp only [List.map_cons, List.nodup_cons] at hnd
    rcases List.mem_cons.1 hu with rfl | hut
    · have ht : t.filter (fun v => v.id == u.id) = [] := by
        apply List.filter_eq_nil_iff.2
        intro v hv hvid
        exact hnd.1 (List.mem_map.2 ⟨v, hv, by simpa using hvid.symm⟩)
      simp [List.filter_cons, ht]
    · have hne : a.id ≠ u.id := by
        intro hcontra
        exact hnd.1 (List.mem_map.2 ⟨u, hut, hcontra.symm⟩)
      simp [List.filter_cons, hne, ih hnd.2 u hut]

lemma eq_of_mem_of_id_eq {l : List UserRow} (hn : (l.map (fun u => u.id)).Nodup)
    {u r : UserRow} (hu : u ∈ l) (hr : r ∈ l) (h : u.id = r.id) : u = r :=
  List.inj_on_of_nodup_map hn hu hr h

/-! ### Transition and batch-loop invariants -/

lemma transition_ok_destruct {tgt : Nat} {s : String} {now : Nat} {st : DBState}
    {u : UserRow} {st1 : DBState} (h : transition tgt s now st u = .ok st1) :
    (u.manager_id = none ∧
      st1 = ⟨st.users.map (fun v =>
          if v.id = u.id then { v with manager_id := some tgt, updated_at := some now } else v),
        st.managers, st.nextId⟩) ∨
    (∃ m, u.manager_id = some m ∧ m ≠ tgt ∧
      st1 = ⟨(st.users.map (fun v => if v.id = u.id then { v with is_active := false } else v)) ++
          [⟨st.nextId, u.full_name, u.mob_num, u.pan_num, some tgt, u.created_at, none, true⟩],
        st.managers, st.nextId + 1⟩) := by
  unfold transition at h
  split at h
  · exact absurd h (by simp)
  next hne =>
    split at h
    next m hm =>
      right
      refine ⟨m, hm, ?_, ?_⟩
      · intro hcontra
        exact hne (by rw [hm, hcontra])
      · simpa using h.symm
    next hm => exact Or.inl ⟨hm, by simpa using h.symm⟩

lemma transition_error_inv {tgt : Nat} {s : String} {now : Nat} {st : DBState}
    {u : UserRow} {e : Nat × String} (h : transition tgt s now st u = .error e) :
    u.manager_id = some tgt ∧ e = (400, conflictMsg s u.id) := by
  unfold transition at h
  split at h
  next hc => exact ⟨hc, by simpa using h.symm⟩
  next hc =>
    split at h <;> simp at h

lemma transition_ok_ne_tgt {tgt : Nat} {s : String} {now : Nat} {st : DBState}
    {u : UserRow} {st1 : DBState} (h : transition tgt s now st u = .ok st1) :
    u.manager_id ≠ some tgt := by
  unfold transition at h
  split at h
  · simp at h
  next hc => exact hc

lemma transition_nextId_le {tgt : Nat} {s : String} {now : Nat} {st : DBState}
    {u : UserRow} {st1 : DBState} (h : transition tgt s now st u = .ok st1) :
    st.nextId ≤ st1.nextId := by
  rcases transition_ok_destruct h with ⟨_, rfl⟩ | ⟨m, _, _, rfl⟩ <;> simp

lemma transition_idBound {tgt : Nat} {s : String} {now : Nat} {st : DBState}
    {u : UserRow} {st1 : DBState} (hb : ∀ r ∈ st.users, r.id < st.nextId)
    (h : transition tgt s now st u = .ok st1) :
    ∀ r ∈ st1.users, r.id < st1.nextId := by
  rcases transition_ok_destruct h with ⟨_, rfl⟩ | ⟨m, _, _, rfl⟩
  · intro r hr
    obtain ⟨v, hv, rfl⟩ := List.mem_map.1 hr
    have := hb v hv
    by_cases hid : v.id = u.id <;> simp [hid] <;> omega
  · intro r hr
    rcases List.mem_append.1 hr with hr | hr
    · obtain ⟨v, hv, rfl⟩ := List.mem_map.1 hr
      have := hb v hv
      by_cases hid : v.id = u.id <;> simp [hid] <;> omega
    · simp at hr
      subst hr
      simp

lemma transition_filter_pres {tgt : Nat} {s : String} {now : Nat} {st : DBState}
    {u : UserRow} {st1 : DBState} {id0 : Nat} (hne : u.id ≠ id0) (hlt : id0 < st.nextId)
    (h : transition tgt s now st u = .ok st1) :
    st1.users.filter (fun v => v.id == id0) = st.users.filter (fun v => v.id == id0) := by
  rcases transition_ok_destruct h with ⟨_, rfl⟩ | ⟨m, _, _, rfl⟩
  · exact map_filter_id_fix _ (fun v => by by_cases hid : v.id = u.id <;> simp [hid]) id0 _
      (fun v hv => by
        have : ¬ v.id = u.id := by rw [hv]; exact fun hc => hne hc.symm
        simp [this])
  · rw [List.filter_append]
    have hnew : (([⟨st.nextId, u.full_name, u.mob_num, u.pan_num, some tgt, u.created_at,
        none, true⟩] : List UserRow).filter (fun v => v.id == id0)) = [] := by
      simp [List.filter_cons]
      omega
    rw [hnew, List.append_nil]
    exact map_filter_id_fix _ (fun v => by by_cases hid : v.id = u.id <;> simp [hid]) id0 _
      (fun v hv => by
        have : ¬ v.id = u.id := by rw [hv]; exact fun hc => hne hc.symm
        simp [this])

lemma transition_mem_pres {tgt : Nat} {s : String} {now : Nat} {st : DBState}
    {u : UserRow} {st1 : DBState} {r : UserRow} (hr : r ∈ st.users) (hne : u.id ≠ r.id)
    (h : transition tgt s now st u = .ok st1) : r ∈ st1.users := by
  have hfix : ¬ r.id = u.id := fun hc => hne hc.symm
  rcases transition_ok_destruct h with ⟨_, rfl⟩ | ⟨m, _, _, rfl⟩
  · have := List.mem_map_of_mem (fun v =>
      if v.id = u.id then { v with manager_id := some tgt, updated_at := some now } else v) hr
    simpa [hfix] using this
  · apply List.mem_append_left
    have := List.mem_map_of_mem (fun v =>
      if v.id = u.id then { v with is_active := false } else v) hr
    simpa [hfix] using this

lemma transition_len {tgt : Nat} {s : String} {now : Nat} {st : DBState}
    {u : UserRow} {st1 : DBState} (h : transition tgt s now st u = .ok st1) :
    st1.users.length = st.users.length + (if u.manager_id.isSome then 1 else 0) := by
  rcases transition_ok_destruct h with ⟨hm, rfl⟩ | ⟨m, hm, _, rfl⟩ <;> simp [hm]

lemma runBatch_nextId_le {tgt : Nat} {s : String} {now : Nat} :
    ∀ (l : List UserRow) (st st2 : DBState), runBatch tgt s now l st = .ok st2 →
      st.nextId ≤ st2.nextId := by
  intro l
  induction l with
  | nil =>
    intro st st2 h
    simp only [runBatch] at h
    cases h
    exact le_refl _
  | cons u t ih =>
    intro st st2 h
    simp only [runBatch] at h
    cases htr : transition tgt s now st u with
    | error e => rw [htr] at h; simp at h
    | ok st1 =>
      rw [htr] at h
      exact le_trans (transition_nextId_le htr) (ih st1 st2 h)

lemma runBatch_idBound {tgt : Nat} {s : String} {now : Nat} :
    ∀ (l : List UserRow) (st st2 : DBState), (∀ r ∈ st.users, r.id < st.nextId) →
      runBatch tgt s now l st = .ok st2 → ∀ r ∈ st2.users, r.id < st2.nextId := by
  intro l
  induction l with
  | nil =>
    intro st st2 hb h
    simp only [runBatch] at h
    cases h
    exact hb
  | cons u t ih =>
    intro st st2 hb h
    simp only [runBatch] at h
    cases htr : transition tgt s now st u with
    | error e => rw [htr] at h; simp at h
    | ok st1 =>
      rw [htr] at h
      exact ih st1 st2 (transition_idBound hb htr) h

lemma runBatch_filter_pres {tgt : Nat} {s : String} {now : Nat} {id0 : Nat} :
    ∀ (l : List UserRow) (st st2 : DBState), (∀ u ∈ l, u.id ≠ id0) → id0 < st.nextId →
      runBatch tgt s now l st = .ok st2 →
      st2.users.filter (fun v => v.id == id0) = st.users.filter (fun v => v.id == id0) := by
  intro l
  induction l with
  | nil =>
    intro st st2 _ _ h
    simp only [runBatch] at h
    cases h
    rfl
  | cons u t ih =>
    intro st st2 hne hlt h
    simp only [runBatch] at h
    cases htr : transition tgt s now st u with
    | error e => rw [htr] at h; simp at h
    | ok st1 =>
      rw [htr] at h
      have h1 : runBatch tgt s now t st1 = .ok st2 := h
      rw [ih st1 st2 (fun v hv => hne v (by simp [hv]))
        (lt_of_lt_of_le hlt (transition_nextId_le htr)) h1]
      exact transition_filter_pres (hne u (by simp)) hlt htr

lemma runBatch_mem_pres {tgt : Nat} {s : String} {now : Nat} {r : UserRow} :
    ∀ (l : List UserRow) (st st2 : DBState), r ∈ st.users → (∀ u ∈ l, u.id ≠ r.id) →
      runBatch tgt s now l st = .ok st2 → r ∈ st2.users := by
  intro l
  induction l with
  | nil =>
    intro st st2 hr _ h
    simp only [runBatch] at h
    cases h
    exact hr
  | cons u t ih =>
    intro st st2 hr hne h
    simp only [runBatch] at h
    cases htr : transition tgt s now st u with
    | error e => rw [htr] at h; simp at h
    | ok st1 =>
      rw [htr] at h
      have h1 : runBatch tgt s now t st1 = .ok st2 := h
      exact ih st1 st2 (transition_mem_pres hr (hne u (by simp)) htr)
        (fun v hv => hne v (by simp [hv])) h1

lemma runBatch_len {tgt : Nat} {s : String} {now : Nat} :
    ∀ (l : List UserRow) (st st2 : DBState), runBatch tgt s now l st = .ok st2 →
      st2.users.length = st.users.length + l.countP (fun v => v.manager_id.isSome) := by
  intro l
  induction l with
  | nil =>
    intro st st2 h
    simp only [runBatch] at h
    cases h
    simp
  | cons u t ih =>
    intro st st2 h
    simp only [runBatch] at h
    cases htr : transition tgt s now st u with
    | error e => rw [htr] at h; simp at h
    | ok st1 =>
      rw [htr] at h
      have h1 : runBatch tgt s now t st1 = .ok st2 := h
      have h2 := transition_len htr
      have h3 := ih st1 st2 h1
      rw [List.countP_cons]
      by_cases hm : u.manager_id.isSome <;> simp [hm] at h2 ⊢ <;> omega

lemma runBatch_error_status {tgt : Nat} {s : String} {now : Nat} :
    ∀ (l : List UserRow) (st : DBState) (e : Nat × String),
      runBatch tgt s now l st = .error e → e.1 = 400 := by
  intro l
  induction l with
  | nil =>
    intro st e h
    simp only [runBatch] at h
    simp at h
  | cons u t ih =>
    intro st e h
    simp only [runBatch] at h
    cases htr : transition tgt s now st u with
    | error e1 =>
      rw [htr] at h
      simp at h
      rw [← h]
      exact congrArg Prod.fst (transition_error_inv htr).2
    | ok st1 =>
      rw [htr] at h
      exact ih st1 e h

lemma runBatch_conflict {tgt : Nat} {s : String} {now : Nat} :
    ∀ (l : List UserRow) (st : DBState) (u : UserRow), u ∈ l → u.manager_id = some tgt →
      ∃ u', u' ∈ l ∧ u'.manager_id = some tgt ∧
        runBatch tgt s now l st = .error (400, conflictMsg s u'.id) := by
  intro l
  induction l with
  | nil => intro st u hu; simp at hu
  | cons hd t ih =>
    intro st u hu hm
    cases htr : transition tgt s now st hd with
    | error e =>
      obtain ⟨hhd, he⟩ := transition_error_inv htr
      exact ⟨hd, by simp, hhd, by simp only [runBatch]; rw [htr, he]⟩
    | ok st1 =>
      have hne := transition_ok_ne_tgt htr
      rcases List.mem_cons.1 hu with rfl | hut
      · exact absurd hm hne
      · obtain ⟨u', hu', hm', herr⟩ := ih st1 u hut hm
        exact ⟨u', by simp [hu'], hm', by simp only [runBatch]; rw [htr]; exact herr⟩

lemma transition_inplace_step {tgt : Nat} {s : String} {now : Nat} {st : DBState}
    {u : UserRow} {st1 : DBState} (hm : u.manager_id = none)
    (h : transition tgt s now st u = .ok st1)
    (hf : st.users.filter (fun v => v.id == u.id) = [u]) :
    st1.users.filter (fun v => v.id == u.id) =
      [{ u with manager_id := some tgt, updated_at := some now }] ∧
    st1.nextId = st.nextId := by
  rcases transition_ok_destruct h with ⟨_, rfl⟩ | ⟨m, hm', _, _⟩
  · constructor
    · rw [filter_map_comm _ (fun v => by by_cases hid : v.id = u.id <;> simp [hid]) _ _, hf]
      simp
    · rfl
  · rw [hm] at hm'; cases hm'

lemma transition_reassign_step {tgt : Nat} {s : String} {now : Nat} {st : DBState}
    {u : UserRow} {st1 : DBState} {m : Nat} (hm : u.manager_id = some m)
    (h : transition tgt s now st u = .ok st1) (hlt : u.id < st.nextId)
    (hf : st.users.filter (fun v => v.id == u.id) = [u]) :
    st1.users.filter (fun v => v.id == u.id) = [{ u with is_active := false }] ∧
    (⟨st.nextId, u.full_name, u.mob_num, u.pan_num, some tgt, u.created_at, none, true⟩ :
      UserRow) ∈ st1.users ∧
    st1.nextId = st.nextId + 1 := by
  rcases transition_ok_destruct h with ⟨hm', _⟩ | ⟨m', hm', hmt, rfl⟩
  · rw [hm] at hm'; cases hm'
  · refine ⟨?_, by simp, rfl⟩
    have hnew : (([⟨st.nextId, u.full_name, u.mob_num, u.pan_num, some tgt, u.created_at,
        none, true⟩] : List UserRow).filter (fun v => v.id == u.id)) = [] := by
      simp [List.filter_cons]
      omega
    rw [List.filter_append, hnew, List.append_nil,
      filter_map_comm _ (fun v => by by_cases hid : v.id = u.id <;> simp [hid]) _ _, hf]
    simp

lemma runBatch_inplace {tgt : Nat} {s : String} {now : Nat} :
    ∀ (l : List UserRow) (st st2 : DBState) (u : UserRow),
      u ∈ l → u.manager_id = none →
      (l.map (fun v => v.id)).Nodup →
      (∀ v ∈ l, v.id < st.nextId) →
      (∀ r ∈ st.users, r.id < st.nextId) →
      st.users.filter (fun v => v.id == u.id) = [u] →
      runBatch tgt s now l st = .ok st2 →
      st2.users.filter (fun v => v.id == u.id) =
        [{ u with manager_id := some tgt, updated_at := some now }] := by
  intro l
  induction l with
  | nil => intro st st2 u hu; simp at hu
  | cons hd t ih =>
    intro st st2 u hu hm hnd hlb hb hf hrun
    simp only [runBatch] at hrun
    cases htr : transition tgt s now st hd with
    | error e => rw [htr] at hrun; simp at hrun
    | ok st1 =>
      rw [htr] at hrun
      have hrun1 : runBatch tgt s now t st1 = .ok st2 := hrun
      simp only [List.map_cons, List.nodup_cons] at hnd
      have hrest : ∀ v ∈ t, v.id ≠ hd.id := fun v hv hc =>
        hnd.1 (by rw [← hc]; exact List.mem_map_of_mem _ hv)
      by_cases hhd : hd = u
      · subst hhd
        obtain ⟨hstep, hnx⟩ := transition_inplace_step hm htr hf
        rw [runBatch_filter_pres t st1 st2 hrest
          (by rw [hnx]; exact hlb hd (by simp)) hrun1]
        exact hstep
      · have hut : u ∈ t := by
          rcases List.mem_cons.1 hu with rfl | hut
          · exact absurd rfl hhd
          · exact hut
        have hidne : hd.id ≠ u.id := fun hc =>
          hnd.1 (by rw [hc]; exact List.mem_map_of_mem _ hut)
        have hf1 : st1.users.filter (fun v => v.id == u.id) = [u] := by
          rw [transition_filter_pres hidne (hlb u hu) htr]
          exact hf
        exact ih st1 st2 u hut hm hnd.2
          (fun v hv => lt_of_lt_of_le (hlb v (by simp [hv])) (transition_nextId_le htr))
          (transition_idBound hb htr) hf1 hrun1

lemma runBatch_reassign {tgt : Nat} {s : String} {now : Nat} :
    ∀ (l : List UserRow) (st st2 : DBState) (u : UserRow) (m : Nat),
      u ∈ l → u.manager_id = some m →
      (l.map (fun v => v.id)).Nodup →
      (∀ v ∈ l, v.id < st.nextId) →
      (∀ r ∈ st.users, r.id < st.nextId) →
      st.users.filter (fun v => v.id == u.id) = [u] →
      runBatch tgt s now l st = .ok st2 →
      st2.users.filter (fun v => v.id == u.id) = [{ u with is_active := false }] ∧
      ∃ nid, (⟨nid, u.full_name, u.mob_num, u.pan_num, some tgt, u.created_at, none, true⟩ :
        UserRow) ∈ st2.users := by
  intro l
  induction l with
  | nil => intro st st2 u m hu; simp at hu
  | cons hd t ih =>
    intro st st2 u m hu hm hnd hlb hb hf hrun
    simp only [runBatch] at hrun
    cases htr : transition tgt s now st hd with
    | error e => rw [htr] at hrun; simp at hrun
    | ok st1 =>
      rw [htr] at hrun
      have hrun1 : runBatch tgt s now t st1 = .ok st2 := hrun
      simp only [List.map_cons, List.nodup_cons] at hnd
      have hrest : ∀ v ∈ t, v.id ≠ hd.id := fun v hv hc =>
        hnd.1 (by rw [← hc]; exact List.mem_map_of_mem _ hv)
      by_cases hhd : hd = u
      · subst hhd
        obtain ⟨hstep, hmem, hnx⟩ := transition_reassign_step hm htr (hlb hd (by simp)) hf
        constructor
        · rw [runBatch_filter_pres t st1 st2 hrest
            (by rw [hnx]; exact Nat.lt_succ_of_lt (hlb hd (by simp))) hrun1]
          exact hstep
        · refine ⟨st.nextId, ?_⟩
          have hne2 : ∀ v ∈ t, v.id ≠ (⟨st.nextId, hd.full_name, hd.mob_num, hd.pan_num,
              some tgt, hd.created_at, none, true⟩ : UserRow).id := by
            intro v hv
            have := hlb v (by simp [hv])
            simp
            omega
          exact runBatch_mem_pres t st1 st2 hmem hne2 hrun1
      · have hut : u ∈ t := by
          rcases List.mem_cons.1 hu with rfl | hut
          · exact absurd rfl hhd
          · exact hut
        have hidne : hd.id ≠ u.id := fun hc =>
          hnd.1 (by rw [hc]; exact List.mem_map_of_mem _ hut)
        have hf1 : st1.users.filter (fun v => v.id == u.id) = [u] := by
          rw [transition_filter_pres hidne (hlb u hu) htr]
          exact hf
        exact ih st1 st2 u m hut hm hnd.2
          (fun v hv => lt_of_lt_of_le (hlb v (by simp [hv])) (transition_nextId_le htr))
          (transition_idBound hb htr) hf1 hrun1

/-! ### managerStep, resolveUsers and updateUser inversion -/

lemma managerStep_error_status {st : DBState} {ud : List (String × Option String)}
    {e : Nat × String} (h : managerStep st ud = .error e) : e.1 = 400 := by
  unfold managerStep at h
  split at h
  · simp at h
  · split at h
    · simp at h
      simp [← h]
    · split at h
      · simp at h
      · simp at h
        simp [← h]

lemma managerStep_cases {st : DBState} {ud : List (String × Option String)}
    {s : String} {tgt : Nat}
    (hud : dictGet ud "manager_id" = some s) (hs : s ≠ "") (hp : parseId s = some tgt) :
    managerStep st ud = (if st.managers.any (fun m => m.id == tgt && m.is_active) then
      .ok (some tgt) else .error (400, "Invalid manager ID")) := by
  unfold managerStep
  rw [hud]
  simp only [Option.getD_some]
  rw [if_neg hs, hp]

lemma managerStep_ok_inv {st : DBState} {ud : List (String × Option String)}
    {s : String} {tgt : Nat} {tgtOpt : Option Nat}
    (hud : dictGet ud "manager_id" = some s) (hs : s ≠ "") (hp : parseId s = some tgt)
    (h : managerStep st ud = .ok tgtOpt) : tgtOpt = some tgt := by
  rw [managerStep_cases hud hs hp] at h
  split at h
  · simpa using h.symm
  · simp at h

lemma managerStep_ok_of {st : DBState} {ud : List (String × Option String)}
    {s : String} {tgt : Nat}
    (hud : dictGet ud "manager_id" = some s) (hs : s ≠ "") (hp : parseId s = some tgt)
    (hm : st.managers.any (fun m => m.id == tgt && m.is_active) = true) :
    managerStep st ud = .ok (some tgt) := by
  rw [managerStep_cases hud hs hp, if_pos hm]

lemma managerStep_ok_empty {st : DBState} {ud : List (String × Option String)}
    (h : (dictGet ud "manager_id").getD "" = "") : managerStep st ud = .ok none := by
  unfold managerStep
  rw [h]
  simp

lemma mem_resolveUsers {st : DBState} {uids : List Nat} {u : UserRow}
    (hu : u ∈ st.users) (hin : uids.contains u.id = true) (hua : u.is_active = true) :
    u ∈ resolveUsers st uids := by
  apply List.mem_filter.2
  refine ⟨hu, ?_⟩
  have hmem : u.id ∈ uids := by simpa using hin
  simp [hua, hmem]

lemma resolveUsers_sub {st : DBState} {uids : List Nat} :
    ∀ v ∈ resolveUsers st uids, v ∈ st.users :=
  fun _ hv => List.mem_of_mem_filter hv

lemma resolveUsers_active {st : DBState} {uids : List Nat} {v : UserRow}
    (hv : v ∈ resolveUsers st uids) : v.is_active = true := by
  have := List.of_mem_filter hv
  simp at this
  exact this.2

lemma resolveUsers_contains {st : DBState} {uids : List Nat} {v : UserRow}
    (hv : v ∈ resolveUsers st uids) : v.id ∈ uids := by
  have := List.of_mem_filter hv
  simp at this
  exact this.1

lemma resolveUsers_nodup {st : DBState} {uids : List Nat}
    (h : (st.users.map (fun u => u.id)).Nodup) :
    ((resolveUsers st uids).map (fun u => u.id)).Nodup :=
  h.sublist ((List.filter_sublist _).map _)

lemma resolveUsers_length_le {st : DBState} {uids : List Nat}
    (h : (st.users.map (fun u => u.id)).Nodup) :
    (resolveUsers st uids).length ≤ uids.length := by
  have hnd := @resolveUsers_nodup st uids h
  have hsub : ((resolveUsers st uids).map (fun u => u.id)) ⊆ uids := by
    intro x hx
    obtain ⟨v, hv, rfl⟩ := List.mem_map.1 hx
    exact resolveUsers_contains hv
  calc (resolveUsers st uids).length
      = ((resolveUsers st uids).map (fun u => u.id)).length := (List.length_map _ _).symm
    _ ≤ uids.length := (List.subperm_of_subset hnd hsub).length_le

lemma updateUser_ok_inv {st st2 : DBState} {uids : List Nat}
    {ud : List (String × Option String)} {now : Nat} {s : String} {tgt : Nat}
    (hud : dictGet ud "manager_id" = some s) (hs : s ≠ "") (hp : parseId s = some tgt)
    (h : updateUser st (some uids) (some ud) now = ⟨st2, 200, "Users updated successfully"⟩) :
    runBatch tgt s now (resolveUsers st uids) st = .ok st2 := by
  simp only [updateUser] at h
  split at h
  · simp [HOut.mk.injEq] at h
  · split at h
    · simp [HOut.mk.injEq] at h
    · split at h
      · simp [HOut.mk.injEq] at h
      · split at h
        next e heq =>
          have := managerStep_error_status heq
          simp [HOut.mk.injEq] at h
          omega
        next tgtOpt heq =>
          have htgt := managerStep_ok_inv hud hs hp heq
          simp only [htgt] at h
          split at h
          · simp [HOut.mk.injEq] at h
          · rw [hud] at h
            simp only [Option.getD_some] at h
            split at h
            next e heq2 =>
              have := runBatch_error_status _ _ _ heq2
              simp [HOut.mk.injEq] at h
              omega
            next st2' heq2 =>
              simp [HOut.mk.injEq] at h
              rw [h] at heq2
              exact heq2


/-! ### Further helpers -/

/-- The tail of update_user after the batch-shape checks and the manager step
have succeeded: the not-found check followed by the loop and the commit. -/
def afterResolve (st : DBState) (uids : List Nat) (ud : List (String × Option String))
    (now : Nat) (tgtOpt : Option Nat) : HOut :=
  if (resolveUsers st uids).length ≠ uids.length then
    ⟨st, 404, "One or more user IDs not found"⟩
  else
    match tgtOpt with
    | none => ⟨st, 200, "Users updated successfully"⟩
    | some tgt =>
      match runBatch tgt ((dictGet ud "manager_id").getD "") now (resolveUsers st uids) st with
      | .error e => ⟨st, e.1, e.2⟩
      | .ok st2 => ⟨st2, 200, "Users updated successfully"⟩


lemma updateUser_run_eq {st : DBState} {uids : List Nat} {ud : List (String × Option String)}
    {now : Nat} {s : String} {tgt : Nat}
    (hne : uids ≠ []) (hudne : ud ≠ []) (hkeys : extraKeys ud = [])
    (hud : dictGet ud "manager_id" = some s) (hs : s ≠ "") (hp : parseId s = some tgt)
    (hman : st.managers.any (fun m => m.id == tgt && m.is_active) = true)
    (hlen : (resolveUsers st uids).length = uids.length) :
    updateUser st (some uids) (some ud) now =
      (match runBatch tgt s now (resolveUsers st uids) st with
       | .error e => ⟨st, e.1, e.2⟩
       | .ok st2 => ⟨st2, 200, "Users updated successfully"⟩) := by
  simp only [updateUser, managerStep_ok_of hud hs hp hman, hud, Option.getD_some]
  rw [if_neg hne, if_neg hudne,
    if_neg (show ¬ extraKeys ud ≠ [] from fun hc => hc hkeys),
    if_neg (show ¬ (resolveUsers st uids).length ≠ uids.length from fun hc => hc hlen)]

lemma mem_eraseP_of_not {p : UserRow → Bool} :
    ∀ (l : List UserRow) (r : UserRow), r ∈ l → p r = false → r ∈ l.eraseP p := by
  intro l
  induction l with
  | nil => intro r hr; simp at hr
  | cons a t ih =>
    intro r hr hp
    rcases List.mem_cons.1 hr with rfl | hrt
    · rw [List.eraseP_cons, hp]
      simp
    · rw [List.eraseP_cons]
      cases hpa : p a
      · simp only [cond_false]
        exact List.mem_cons.2 (Or.inr (ih r hrt hp))
      · simp only [cond_true]
        exact hrt

lemma findTarget_mem {st : DBState} {uid : Option Nat} {mob : String} {u : UserRow}
    (h : findTarget st uid mob = some u) : u ∈ st.users ∧ u.is_active = true := by
  unfold findTarget at h
  split at h
  · have hm := List.mem_of_find?_eq_some h
    have hp := List.find?_some h
    simp at hp
    exact ⟨hm, hp.2⟩
  · have hm := List.mem_of_find?_eq_some h
    have hp := List.find?_some h
    simp at hp
    exact ⟨hm, hp.2⟩

/-! ### Example database states used in the witnesses and counterexamples -/

def emptyDB : DBState := ⟨[], [], 0⟩

def stC7 : DBState := ⟨[⟨0, "A", "9876543210", "ABCDE1234F", none, 3, none, true⟩], [], 1⟩

def exC1 : DBState := ⟨[⟨10, "U", "9876543210", "ABCDE1234F", some 0, 5, none, true⟩],
  [⟨0, "M1", "a@b.cd", true⟩, ⟨1, "M2", "b@b.cd", true⟩], 11⟩

def exC1row : UserRow := ⟨10, "U", "9876543210", "ABCDE1234F", some 0, 5, none, true⟩

def exC1st2 : DBState := ⟨[⟨10, "U", "9876543210", "ABCDE1234F", some 0, 5, none, false⟩,
  ⟨11, "U", "9876543210", "ABCDE1234F", some 1, 5, none, true⟩], exC1.managers, 12⟩

def exC2 : DBState := ⟨[⟨10, "U", "9876543210", "ABCDE1234F", some 0, 5, none, true⟩],
  [⟨0, "M", "m@x.co", true⟩], 11⟩

def exC3 : DBState := ⟨[⟨10, "U", "9876543210", "ABCDE1234F", none, 0, none, false⟩], [], 11⟩

def exC4 : DBState := ⟨[⟨10, "U1", "9000000001", "ABCDE1234F", none, 0, none, true⟩,
  ⟨11, "U2", "9000000002", "FGHIJ5678K", some 1, 0, none, true⟩],
  [⟨1, "M", "m@x.co", true⟩], 12⟩

def exC5 : DBState := ⟨[⟨10, "U", "9876543210", "ABCDE1234F", none, 0, none, true⟩], [], 11⟩

def exC6 : DBState := ⟨[⟨10, "U", "9876543210", "ABCDE1234F", none, 5, none, true⟩],
  [⟨1, "M2", "b@b.cd", true⟩], 11⟩

def exC6st2 : DBState := ⟨[⟨10, "U", "9876543210", "ABCDE1234F", some 1, 5, some 7, true⟩],
  exC6.managers, 11⟩

def exC6row : UserRow := ⟨10, "U", "9876543210", "ABCDE1234F", none, 5, none, true⟩

def exC8 : DBState := ⟨[⟨10, "U", "9876543210", "ABCDE1234F", some 0, 5, none, false⟩,
  ⟨11, "V", "8876543210", "FGHIJ5678K", none, 5, none, true⟩], [⟨0, "M", "m@x.co", true⟩], 12⟩

def exC8row : UserRow := ⟨10, "U", "9876543210", "ABCDE1234F", some 0, 5, none, false⟩

/-! ### The claims -/

/-- C1: for every active user whose current manager_id is non-null and different
from the target manager id, update_users_manager leaves the old row unmutated
except for the is_active flag (manager_id still the old value, all other fields
unchanged), inserts a new active row duplicating full_name/mob_num/pan_num/
created_at with manager_id the target and updated_at unset, and the old row is
returned by get_inactive_users. -/
theorem C1_reassign_versioning
    (st st2 : DBState) (uids : List Nat) (ud : List (String × Option String)) (now : Nat)
    (s : String) (tgt m : Nat) (u : UserRow)
    (hwf : WF st)
    (hud : dictGet ud "manager_id" = some s) (hs : s ≠ "") (hp : parseId s = some tgt)
    (hu : u ∈ st.users) (hua : u.is_active = true) (hin : uids.contains u.id = true)
    (hm : u.manager_id = some m) (_hmt : m ≠ tgt)
    (hrun : updateUser st (some uids) (some ud) now =
      ⟨st2, 200, "Users updated successfully"⟩) :
    st2.users.filter (fun v => v.id == u.id) = [{ u with is_active := false }] ∧
    (∃ nid, (⟨nid, u.full_name, u.mob_num, u.pan_num, some tgt, u.created_at, none, true⟩ :
      UserRow) ∈ st2.users) ∧
    { u with is_active := false } ∈ getInactiveUsers st2 := by
  have hbatch := updateUser_ok_inv hud hs hp hrun
  have hures : u ∈ resolveUsers st uids := mem_resolveUsers hu hin hua
  have hnd := @resolveUsers_nodup st uids hwf.1
  have hlb : ∀ v ∈ resolveUsers st uids, v.id < st.nextId :=
    fun v hv => hwf.2 v (resolveUsers_sub v hv)
  have hf : st.users.filter (fun v => v.id == u.id) = [u] :=
    filter_eq_single_of_nodup st.users hwf.1 u hu
  obtain ⟨h1, h2⟩ :=
    runBatch_reassign (resolveUsers st uids) st st2 u m hures hm hnd hlb hwf.2 hf hbatch
  refine ⟨h1, h2, ?_⟩
  have hmem : ({ u with is_active := false } : UserRow) ∈ st2.users := by
    have hx : ({ u with is_active := false } : UserRow) ∈
        st2.users.filter (fun v => v.id == u.id) := by
      rw [h1]
      simp
    exact List.mem_of_mem_filter hx
  exact List.mem_filter.2 ⟨hmem, by simp⟩

/-- C1 witness: a concrete run of the reassignment scenario. -/
theorem C1_witness :
    exC1st2.users.filter (fun v => v.id == exC1row.id) =
      [{ exC1row with is_active := false }] ∧
    (∃ nid, (⟨nid, exC1row.full_name, exC1row.mob_num, exC1row.pan_num, some 1,
      exC1row.created_at, none, true⟩ : UserRow) ∈ exC1st2.users) ∧
    { exC1row with is_active := false } ∈ getInactiveUsers exC1st2 :=
  C1_reassign_versioning exC1 exC1st2 [10] [("manager_id", some "1")] 7 "1" 1 0 exC1row
    ⟨by decide, by decide⟩ (by decide) (by decide) (by decide) (by decide) (by decide)
    (by decide) (by decide) (by decide) (by decide)

/-- C2 counterexample: with a user currently assigned to manager 0, calling
update_user with an empty manager_id succeeds with status 200 but leaves the
user's manager_id equal to some 0 rather than null — the claim that the user is
unassigned is false on the code (the per-user loop body is guarded by the
truthiness of manager_id_str). -/
theorem C2_counterexample :
    ((updateUser exC2 (some [10]) (some [("manager_id", some "")]) 7).state.users.filter
      (fun v => v.id == 10)).map (fun v => v.manager_id) = [some 0] ∧
    (updateUser exC2 (some [10]) (some [("manager_id", some "")]) 7).status = 200 := by
  decide

/-- C2 (amended): when manager_id is absent or empty in update_data, the call
performs no mutation at all — after validation and user resolution the per-user
loop is skipped and the committed state equals the input state (in particular
no user's manager_id is set to null). -/
theorem C2_unassign_is_noop
    (st : DBState) (uids : List Nat) (ud : List (String × Option String)) (now : Nat)
    (h : (dictGet ud "manager_id").getD "" = "") :
    (updateUser st (some uids) (some ud) now).state = st := by
  simp only [updateUser, managerStep_ok_empty h]
  split
  · rfl
  · split
    · rfl
    · split
      · rfl
      · split
        · rfl
        · rfl

/-- C2 witness: the no-op theorem applied to the counterexample state. -/
theorem C2_witness :
    (updateUser exC2 (some [10]) (some [("manager_id", some "")]) 7).state = exC2 :=
  C2_unassign_is_noop exC2 [10] [("manager_id", some "")] 7 (by decide)

/-- C6: for every active user whose current manager_id is null, a successful
update_users_manager with a (truthy) target manager assigns in place — the row
with the same id ends with manager_id the target and updated_at the current
time, and the total number of user rows grows only by the number of users in
the batch that had a manager (so no new row is inserted for this user). -/
theorem C6_first_assignment_in_place
    (st st2 : DBState) (uids : List Nat) (ud : List (String × Option String)) (now : Nat)
    (s : String) (tgt : Nat) (u : UserRow)
    (hwf : WF st)
    (hud : dictGet ud "manager_id" = some s) (hs : s ≠ "") (hp : parseId s = some tgt)
    (hu : u ∈ st.users) (hua : u.is_active = true) (hin : uids.contains u.id = true)
    (hm : u.manager_id = none)
    (hrun : updateUser st (some uids) (some ud) now =
      ⟨st2, 200, "Users updated successfully"⟩) :
    st2.users.filter (fun v => v.id == u.id) =
      [{ u with manager_id := some tgt, updated_at := some now }] ∧
    st2.users.length = st.users.length +
      (resolveUsers st uids).countP (fun v => v.manager_id.isSome) := by
  have hbatch := updateUser_ok_inv hud hs hp hrun
  have hures : u ∈ resolveUsers st uids := mem_resolveUsers hu hin hua
  have hnd := @resolveUsers_nodup st uids hwf.1
  have hlb : ∀ v ∈ resolveUsers st uids, v.id < st.nextId :=
    fun v hv => hwf.2 v (resolveUsers_sub v hv)
  have hf : st.users.filter (fun v => v.id == u.id) = [u] :=
    filter_eq_single_of_nodup st.users hwf.1 u hu
  exact ⟨runBatch_inplace (resolveUsers st uids) st st2 u hures hm hnd hlb hwf.2 hf hbatch,
    runBatch_len _ _ _ hbatch⟩

/-- C6 witness: a concrete first-assignment run. -/
theorem C6_witness :
    exC6st2.users.filter (fun v => v.id == exC6row.id) =
      [{ exC6row with manager_id := some 1, updated_at := some 7 }] ∧
    exC6st2.users.length = exC6.users.length +
      (resolveUsers exC6 [10]).countP (fun v => v.manager_id.isSome) :=
  C6_first_assignment_in_place exC6 exC6st2 [10] [("manager_id", some "1")] 7 "1" 1 exC6row
    ⟨by decide, by decide⟩ (by decide) (by decide) (by decide) (by decide) (by decide)
    (by decide) (by decide) (by decide)

/-- C10: update_user rejects an empty user_ids list, and an empty update_data
mapping, with status 400 and the corresponding required-field message, for
every database state — in particular the manager lookup and the user
resolution never run and the state is unchanged. -/
theorem C10_empty_inputs_rejected (st : DBState) (now : Nat) :
    (∀ ud, updateUser st (some []) ud now =
      ⟨st, 400, "user_ids is required and must be a list"⟩) ∧
    (∀ uids, uids ≠ [] → updateUser st (some uids) (some []) now =
      ⟨st, 400, "update_data is required and must be an object"⟩) := by
  constructor
  · intro ud
    rfl
  · intro uids h
    simp only [updateUser]
    rw [if_neg h]
    simp

/-- C10 witness: the rejection applied to a populated state with a valid user. -/
theorem C10_witness :
    updateUser exC2 (some [10]) (some []) 7 =
      ⟨exC2, 400, "update_data is required and must be an object"⟩ :=
  (C10_empty_inputs_rejected exC2 7).2 [10] (by decide)


/-- C3 counterexample: a database whose only user is INACTIVE and holds the
normalized mobile number still blocks create_user with a conflict — the
duplicate checks are not scoped to active users, so the claim that an inactive
user does not block creation is false on the code. -/
theorem C3_counterexample :
    (∀ u ∈ exC3.users, u.is_active = false) ∧
    createUser exC3 "V" "9876543210" "FGHIJ5678K" none 5 =
      ⟨exC3, 400, "User with the same mobile number already exists"⟩ := by
  decide

/-- C3 (amended): with valid inputs and a valid manager reference, create_user
fails with a conflict (status 400) exactly when ANY existing user — active or
inactive — already holds the normalized mob_num or the normalized pan_num. -/
theorem C3_conflict_checks_all_users
    (st : DBState) (fn mob pan : String) (mid : Option Nat) (now : Nat)
    (hfn : fn ≠ "") (hmob : matchesMobile mob = true)
    (hpan : matchesPAN (upperStr pan) = true) (hman : managerRefOk st mid = true) :
    ((createUser st fn mob pan mid now).status = 400 ↔
      ∃ u ∈ st.users, u.mob_num = normMob mob ∨ u.pan_num = upperStr pan) := by
  have hmobne : mob ≠ "" := by
    intro hc
    rw [hc] at hmob
    simp [matchesMobile, normMob, mobileCore] at hmob
  simp only [createUser]
  rw [if_neg hfn,
    if_neg (show ¬(mob = "" ∨ matchesMobile mob = false) from by simp [hmobne, hmob]),
    if_neg (show ¬ matchesPAN (upperStr pan) = false from by simp [hpan]),
    if_neg (show ¬ managerRefOk st mid = false from by simp [hman])]
  by_cases hdup : st.users.any (fun u => u.mob_num == normMob mob) = true
  · rw [if_pos hdup]
    simp only [List.any_eq_true, beq_iff_eq] at hdup
    obtain ⟨u, hu, hueq⟩ := hdup
    exact ⟨fun _ => ⟨u, hu, Or.inl hueq⟩, fun _ => rfl⟩
  · rw [if_neg hdup]
    by_cases hdup2 : st.users.any (fun u => u.pan_num == upperStr pan) = true
    · rw [if_pos hdup2]
      simp only [List.any_eq_true, beq_iff_eq] at hdup2
      obtain ⟨u, hu, hueq⟩ := hdup2
      exact ⟨fun _ => ⟨u, hu, Or.inr hueq⟩, fun _ => rfl⟩
    · rw [if_neg hdup2]
      simp only [List.any_eq_true, beq_iff_eq] at hdup hdup2
      push_neg at hdup hdup2
      refine ⟨fun h => ?_, fun hex => ?_⟩
      · simp at h
      · obtain ⟨u, hu, hc | hc⟩ := hex
        · exact absurd hc (hdup u hu)
        · exact absurd hc (hdup2 u hu)

/-- C3 witness: the amended conflict condition evaluated on the all-inactive
counterexample database. -/
theorem C3_witness :
    ((createUser exC3 "V" "9876543210" "FGHIJ5678K" none 5).status = 400 ↔
      ∃ u ∈ exC3.users, u.mob_num = normMob "9876543210" ∨
        u.pan_num = upperStr "FGHIJ5678K") :=
  C3_conflict_checks_all_users exC3 "V" "9876543210" "FGHIJ5678K" none 5
    (by decide) (by decide) (by decide) (by decide)

/-- C4: when a resolved user's current manager_id already equals the (valid,
truthy) target, the whole call fails with status 400, no commit happens — the
resulting state is exactly the input state, even if earlier users of the batch
were staged — and the message is the conflict message naming a resolved user
that already has the target and the already-set id. -/
theorem C4_same_manager_conflict_aborts
    (st : DBState) (uids : List Nat) (ud : List (String × Option String)) (now : Nat)
    (s : String) (tgt : Nat) (u : UserRow)
    (hud : dictGet ud "manager_id" = some s) (hs : s ≠ "") (hp : parseId s = some tgt)
    (hman : st.managers.any (fun m => m.id == tgt && m.is_active) = true)
    (hkeys : extraKeys ud = [])
    (hlen : (resolveUsers st uids).length = uids.length)
    (hu : u ∈ st.users) (hua : u.is_active = true) (hin : uids.contains u.id = true)
    (hm : u.manager_id = some tgt) :
    (updateUser st (some uids) (some ud) now).state = st ∧
    (updateUser st (some uids) (some ud) now).status = 400 ∧
    ∃ u', u' ∈ resolveUsers st uids ∧ u'.manager_id = some tgt ∧
      (updateUser st (some uids) (some ud) now).message = conflictMsg s u'.id := by
  have hne : uids ≠ [] := by
    intro hc
    subst hc
    simp at hin
  have hudne : ud ≠ [] := by
    intro hc
    subst hc
    simp [dictGet] at hud
  have hures : u ∈ resolveUsers st uids := mem_resolveUsers hu hin hua
  obtain ⟨u', hu', hm', herr⟩ :=
    @runBatch_conflict tgt s now (resolveUsers st uids) st u hures hm
  have heq : updateUser st (some uids) (some ud) now = ⟨st, 400, conflictMsg s u'.id⟩ := by
    rw [updateUser_run_eq hne hudne hkeys hud hs hp hman hlen, herr]
  exact ⟨by rw [heq], by rw [heq], u', hu', hm', by rw [heq]⟩

/-- C4 witness: a two-user batch in which the first user would be staged for an
in-place assignment and the second already has the target manager. -/
theorem C4_witness :
    (updateUser exC4 (some [10, 11]) (some [("manager_id", some "1")]) 7).state = exC4 ∧
    (updateUser exC4 (some [10, 11]) (some [("manager_id", some "1")]) 7).status = 400 ∧
    ∃ u', u' ∈ resolveUsers exC4 [10, 11] ∧ u'.manager_id = some 1 ∧
      (updateUser exC4 (some [10, 11]) (some [("manager_id", some "1")]) 7).message =
        conflictMsg "1" u'.id :=
  C4_same_manager_conflict_aborts exC4 [10, 11] [("manager_id", some "1")] 7 "1" 1
    ⟨11, "U2", "9000000002", "FGHIJ5678K", some 1, 0, none, true⟩
    (by decide) (by decide) (by decide) (by decide) (by decide) (by decide) (by decide)
    (by decide) (by decide) (by decide)

/-- C5: once the request shape and the manager resolution have been accepted,
update_user fails with status 404 if and only if the number of resolved active
users with ids in user_ids is smaller than the length of user_ids, and in that
case no per-user transition is applied — the result is exactly the input state
with the not-found message. -/
theorem C5_resolution_not_found
    (st : DBState) (uids : List Nat) (ud : List (String × Option String)) (now : Nat)
    (tgtOpt : Option Nat)
    (hwf : WF st) (hne : uids ≠ []) (hudne : ud ≠ []) (hkeys : extraKeys ud = [])
    (hms : managerStep st ud = .ok tgtOpt) :
    ((updateUser st (some uids) (some ud) now).status = 404 ↔
      (resolveUsers st uids).length < uids.length) ∧
    ((resolveUsers st uids).length < uids.length →
      updateUser st (some uids) (some ud) now =
        ⟨st, 404, "One or more user IDs not found"⟩) := by
  have hbase : updateUser st (some uids) (some ud) now =
      afterResolve st uids ud now tgtOpt := by
    simp only [updateUser]
    rw [if_neg hne, if_neg hudne,
      if_neg (show ¬ extraKeys ud ≠ [] from fun hc => hc hkeys), hms]
    rfl
  by_cases hlen : (resolveUsers st uids).length = uids.length
  · have hres : (updateUser st (some uids) (some ud) now).status ≠ 404 := by
      rw [hbase]
      simp only [afterResolve]
      rw [if_neg (show ¬ (resolveUsers st uids).length ≠ uids.length from fun hc => hc hlen)]
      rcases tgtOpt with _ | tgt
      · simp
      · cases hrb : runBatch tgt ((dictGet ud "manager_id").getD "") now
            (resolveUsers st uids) st with
        | error e =>
          have := runBatch_error_status _ _ _ hrb
          simp [hrb]
          omega
        | ok st2 => simp [hrb]
    refine ⟨⟨fun h404 => absurd h404 hres, fun hlt => absurd hlt (by omega)⟩,
      fun hlt => absurd hlt (by omega)⟩
  · have hlt : (resolveUsers st uids).length < uids.length :=
      lt_of_le_of_ne (resolveUsers_length_le hwf.1) hlen
    have heq404 : updateUser st (some uids) (some ud) now =
        ⟨st, 404, "One or more user IDs not found"⟩ := by
      rw [hbase]
      simp only [afterResolve]
      rw [if_pos hlen]
    exact ⟨⟨fun _ => hlt, fun _ => by rw [heq404]⟩, fun _ => heq404⟩

/-- C5 witness: a two-id request of which only one id resolves to an active
user, with the empty (unassign) target accepted by the manager step. -/
theorem C5_witness :
    ((updateUser exC5 (some [10, 11]) (some [("manager_id", some "")]) 7).status = 404 ↔
      (resolveUsers exC5 [10, 11]).length < ([10, 11] : List Nat).length) ∧
    ((resolveUsers exC5 [10, 11]).length < ([10, 11] : List Nat).length →
      updateUser exC5 (some [10, 11]) (some [("manager_id", some "")]) 7 =
        ⟨exC5, 404, "One or more user IDs not found"⟩) :=
  C5_resolution_not_found exC5 [10, 11] [("manager_id", some "")] 7 none
    ⟨by decide, by decide⟩ (by decide) (by decide) (by decide) (by rfl)

/-- C7: create_user stores the mobile number with one leading "+91" or "0"
stripped and stores the PAN uppercased: from an empty database the inputs
"+919876543210", "09876543210" and "9876543210" all store the row with
mob_num "9876543210" and pan_num "ABCDE1234F", each of the three forms then
conflicts with the stored user as a mobile duplicate, and the lower-case pan
input "abcde1234f" conflicts with the stored "ABCDE1234F". -/
theorem C7_normalization :
    createUser emptyDB "A" "+919876543210" "abcde1234f" none 3 =
      ⟨stC7, 201, "User created successfully"⟩ ∧
    createUser emptyDB "A" "09876543210" "abcde1234f" none 3 =
      ⟨stC7, 201, "User created successfully"⟩ ∧
    createUser emptyDB "A" "9876543210" "abcde1234f" none 3 =
      ⟨stC7, 201, "User created successfully"⟩ ∧
    createUser stC7 "B" "+919876543210" "FGHIJ5678K" none 4 =
      ⟨stC7, 400, "User with the same mobile number already exists"⟩ ∧
    createUser stC7 "B" "09876543210" "FGHIJ5678K" none 4 =
      ⟨stC7, 400, "User with the same mobile number already exists"⟩ ∧
    createUser stC7 "B" "9876543210" "FGHIJ5678K" none 4 =
      ⟨stC7, 400, "User with the same mobile number already exists"⟩ ∧
    createUser stC7 "B" "8876543210" "abcde1234f" none 4 =
      ⟨stC7, 400, "User with the same PAN number already exists"⟩ := by
  decide

/-- C8: an inactive user row is preserved, with all its fields unchanged, by
every subsequent mutating operation other than wipe_database: create_user,
delete_user (which only hard-deletes active rows), update_user (which only
resolves active rows) and create_manager. -/
theorem C8_inactive_rows_immutable (st : DBState) (r : UserRow)
    (hwf : WF st) (hr : r ∈ st.users) (hia : r.is_active = false) :
    (∀ fn mob pan mid now, r ∈ (createUser st fn mob pan mid now).state.users) ∧
    (∀ uid mob, r ∈ (deleteUser st uid mob).state.users) ∧
    (∀ uids ud now, r ∈ (updateUser st uids ud now).state.users) ∧
    (∀ fn em, r ∈ (cmState (createManager st fn em)).users) := by
  refine ⟨?_, ?_, ?_, ?_⟩
  · intro fn mob pan mid now
    simp only [createUser]
    split
    · exact hr
    · split
      · exact hr
      · split
        · exact hr
        · split
          · exact hr
          · split
            · exact hr
            · split
              · exact hr
              · simp only
                exact List.mem_append_left _ hr
  · intro uid mob
    simp only [deleteUser]
    split
    · exact hr
    · split
      · exact hr
      next u hfound =>
        obtain ⟨humem, hua⟩ := findTarget_mem hfound
        have hru : r ≠ u := by
          intro hc
          rw [hc, hua] at hia
          cases hia
        have hrid : ¬ (r.id == u.id) = true := by
          simp only [beq_iff_eq]
          intro hc
          exact hru (eq_of_mem_of_id_eq hwf.1 hr humem hc)
        exact mem_eraseP_of_not st.users r hr (by simpa using hrid)
  · intro uids ud now
    match uids with
    | none => exact hr
    | some uidl =>
      match ud with
      | none =>
        simp only [updateUser]
        split
        · exact hr
        · exact hr
      | some udl =>
        simp only [updateUser]
        split
        · exact hr
        · split
          · exact hr
          · split
            · exact hr
            · split
              · exact hr
              · split
                · exact hr
                · split
                  · exact hr
                  · split
                    · exact hr
                    next st2 heq =>
                      have hne : ∀ v ∈ resolveUsers st uidl, v.id ≠ r.id := by
                        intro v hv hc
                        have hvmem := resolveUsers_sub v hv
                        have hveq := eq_of_mem_of_id_eq hwf.1 hvmem hr hc
                        have hva := resolveUsers_active hv
                        rw [hveq, hia] at hva
                        cases hva
                      exact runBatch_mem_pres _ _ _ hr hne heq
  · intro fn em
    simp only [createManager]
    split
    · exact hr
    · split
      · exact hr
      · split
        · exact hr
        · exact hr

/-- C8 witness: the inactive row of exC8 survives an update_user call that
reassigns the other (active) user. -/
theorem C8_witness :
    exC8row ∈ (updateUser exC8 (some [11]) (some [("manager_id", some "0")]) 9).state.users :=
  (C8_inactive_rows_immutable exC8 exC8row ⟨by decide, by decide⟩ (by decide)
    (by decide)).2.2.1 (some [11]) (some [("manager_id", some "0")]) 9

/-- C9: create_manager fails with status 400 when full_name is missing, or when
email is missing or malformed; fails with the email conflict when any existing
manager — active or not — has the email; otherwise appends exactly one manager
row with is_active true and returns the created manager's id, full_name, email
and active flag with status 201. -/
theorem C9_create_manager_behaviour (st : DBState) (fn em : String) :
    (fn = "" → createManager st fn em = .failure st 400 "Full name is required") ∧
    (fn ≠ "" → (em = "" ∨ matchesEmail em = false) →
      createManager st fn em = .failure st 400 "Invalid email address") ∧
    (fn ≠ "" → em ≠ "" → matchesEmail em = true → (∃ m ∈ st.managers, m.email = em) →
      createManager st fn em = .failure st 400 "Manager with the same email already exists") ∧
    (fn ≠ "" → em ≠ "" → matchesEmail em = true → (∀ m ∈ st.managers, m.email ≠ em) →
      createManager st fn em = .success
        ⟨st.users, st.managers ++ [⟨st.nextId, fn, em, true⟩], st.nextId + 1⟩
        201 ⟨st.nextId, fn, em, true⟩) := by
  refine ⟨?_, ?_, ?_, ?_⟩
  · intro h
    simp only [createManager, if_pos h]
  · intro h1 h2
    simp only [createManager]
    rw [if_neg h1, if_pos h2]
  · intro h1 h2 h3 h4
    have hany : st.managers.any (fun m => m.email == em) = true := by
      simp only [List.any_eq_true, beq_iff_eq]
      exact h4
    simp only [createManager]
    rw [if_neg h1,
      if_neg (show ¬(em = "" ∨ matchesEmail em = false) from by simp [h2, h3]),
      if_pos hany]
  · intro h1 h2 h3 h4
    have hany : ¬ st.managers.any (fun m => m.email == em) = true := by
      simp only [List.any_eq_true, beq_iff_eq]
      push_neg
      exact h4
    simp only [createManager]
    rw [if_neg h1,
      if_neg (show ¬(em = "" ∨ matchesEmail em = false) from by simp [h2, h3]),
      if_neg hany]

/-- C9 witness: a successful creation on the empty database. -/
theorem C9_witness :
    createManager emptyDB "A" "a@b.cd" =
      .success ⟨emptyDB.users, emptyDB.managers ++ [⟨emptyDB.nextId, "A", "a@b.cd", true⟩],
        emptyDB.nextId + 1⟩ 201 ⟨emptyDB.nextId, "A", "a@b.cd", true⟩ :=
  (C9_create_manager_behaviour emptyDB "A" "a@b.cd").2.2.2 (by decide) (by decide)
    (by decide) (by decide)


end DailyPe
